import Mathlib

/-!
Shallow embedding of the `dh_bl_core` generic repository and database
connection manager (`src/dh_bl_core/database/repository.py` and
`src/dh_bl_core/database/manager.py`).

Modelling conventions:
  * Python dict payloads are association lists `Payload = List (String × PyVal)`,
    where `PyVal` captures the Python values appearing in this code path
    (None, bool, int, str, UUID, datetime, list of keys).  Python truthiness
    (`not payload.get(k)`) is `PyVal.truthy`.
  * Timestamps are natural numbers.  Every call of `datetime.now(UTC)` in the
    source is a separate clock read; each one is therefore a separate explicit
    parameter of the embedded operation, given in program order.  A real
    monotone clock makes consecutive reads non-decreasing but not necessarily
    equal.
  * The SQLAlchemy `AsyncSession` together with the backing store is a
    `Session`: the table rows plus a counter of statements executed against
    the store (each `session.execute`, insert commit or delete counts one).
    Raising is `Except`-style: each repository operation returns its result
    (value or taxonomy error) together with the session state at that moment,
    so "checked before any database round trip" is visible as an unchanged
    session.
  * SQLAlchemy `Select` statements are immutable values (`SelectStmt`);
    `.where` returns a new statement — exactly the property the Python method
    `_apply_filters` trips over when it discards the return values of its
    helpers.
  * An entity type's capability set (`hasattr(self._MODEL, ...)` checks) is a
    `Caps` record; a `Row` carries the mandatory `id`, one representative
    ordinary column `name`, and the four capability columns, which are
    meaningful only when the corresponding capability is present.
-/

namespace DhBlCore

/-- Python values flowing through payload/filter dicts in the repository. -/
inductive PyVal where
  | vNone
  | vBool (b : Bool)
  | vInt (n : Int)
  | vStr (s : String)
  | vUuid (u : Nat)
  | vTime (t : Nat)
  | vNatList (l : List Nat)
  deriving DecidableEq, Repr

/-- Python truthiness of a value (`bool(v)`). -/
def PyVal.truthy : PyVal → Bool
  | .vNone => false
  | .vBool b => b
  | .vInt n => n != 0
  | .vStr s => s != ""
  | .vUuid _ => true
  | .vTime _ => true
  | .vNatList l => !l.isEmpty

/-- Numeric content of a value, used where the source passes it to an
`id`/`uuid`/timestamp column or to `limit`/`offset`. -/
def PyVal.asNat : PyVal → Nat
  | .vInt n => n.toNat
  | .vUuid u => u
  | .vTime t => t
  | _ => 0

/-- `None`/value distinction for nullable columns and for `limit(None)`. -/
def PyVal.asOptNat : PyVal → Option Nat
  | .vNone => none
  | v => some v.asNat

def PyVal.asStr : PyVal → String
  | .vStr s => s
  | _ => ""

def PyVal.asNatList : PyVal → List Nat
  | .vNatList l => l
  | _ => []

/-- A Python dict, as it appears for payloads, filters and navigation. -/
abbrev Payload := List (String × PyVal)

/-- `payload.get(k)` before defaulting: the stored value, if the key exists. -/
def Payload.getVal : Payload → String → Option PyVal
  | [], _ => none
  | kv :: t, k => if kv.1 == k then some kv.2 else Payload.getVal t k

/-- `payload.get(k)`: `None` when the key is absent. -/
def Payload.get (p : Payload) (k : String) : PyVal :=
  (Payload.getVal p k).getD PyVal.vNone

/-- `k in payload`. -/
def Payload.hasKey (p : Payload) (k : String) : Bool :=
  (Payload.getVal p k).isSome

/-- `payload[k] = v`: overwrite the existing entry, else append a new one. -/
def Payload.set (p : Payload) (k : String) (v : PyVal) : Payload :=
  if Payload.hasKey p k then p.map (fun kv => if kv.1 == k then (k, v) else kv)
  else p ++ [(k, v)]

/-- Capability set of an entity type: which of the optional columns the
model class declares (`hasattr(self._MODEL, "uuid")` and friends). -/
structure Caps where
  hasUuid : Bool
  hasTimestamps : Bool
  hasSoftDelete : Bool
  hasDeactivation : Bool
  deriving DecidableEq, Repr

/-- A persisted row.  `name` stands for the entity's ordinary data columns;
the capability columns are meaningful only when the capability is present. -/
structure Row where
  id : Nat := 0
  name : String := ""
  uuid : Nat := 0
  created_at : Nat := 0
  updated_at : Nat := 0
  deleted_at : Option Nat := none
  deactivated_at : Option Nat := none
  deriving DecidableEq, Repr

/-- `hasattr(model, k)` for the columns the repository touches. -/
def Caps.hasField (caps : Caps) (k : String) : Bool :=
  k == "id" || k == "name" ||
  (k == "uuid" && caps.hasUuid) ||
  ((k == "created_at" || k == "updated_at") && caps.hasTimestamps) ||
  (k == "deleted_at" && caps.hasSoftDelete) ||
  (k == "deactivated_at" && caps.hasDeactivation)

/-- `setattr(model, k, value)` for the columns the repository touches. -/
def Row.setField (r : Row) (k : String) (v : PyVal) : Row :=
  if k == "id" then { r with id := v.asNat }
  else if k == "name" then { r with name := v.asStr }
  else if k == "uuid" then { r with uuid := v.asNat }
  else if k == "created_at" then { r with created_at := v.asNat }
  else if k == "updated_at" then { r with updated_at := v.asNat }
  else if k == "deleted_at" then { r with deleted_at := v.asOptNat }
  else if k == "deactivated_at" then { r with deactivated_at := v.asOptNat }
  else r

/-- Taxonomy errors raised by the repository (`exceptions.py`), plus the
storage-layer `MultipleResultsFound` that `scalar_one_or_none` can raise. -/
inductive RepoErr where
  | notFound
  | noUuidInModel
  | noPrimaryKeyInModel
  | deactivatedNotAllowed
  | multipleResults
  deriving DecidableEq, Repr

/-- The session plus backing store: current table contents, the server-side
id sequence, and how many statements have been executed against the store. -/
structure Session where
  rows : List Row := []
  nextId : Nat := 1
  queries : Nat := 0
  deriving DecidableEq, Repr

/-- `session.add(entity); commit()` for an entity previously loaded with
primary key `origId`: the stored row with that id is replaced. -/
def Session.commitUpdate (s : Session) (origId : Nat) (entity : Row) : Session :=
  { s with rows := s.rows.map (fun r => if r.id == origId then entity else r),
           queries := s.queries + 1 }

/-- `result.scalar_one_or_none()` over the rows a select matched. -/
def scalar_one_or_none (l : List Row) : Except RepoErr (Option Row) :=
  match l with
  | [] => .ok none
  | [r] => .ok (some r)
  | _ :: _ :: _ => .error .multipleResults

/-- `BaseRepository._get_by_field_name_and_value`: execute a select for the
rows matching the predicate, then demand exactly one row, else `NotFound`. -/
def get_by_field_value (s : Session) (p : Row → Bool) : Except RepoErr Row × Session :=
  let s1 : Session := { s with queries := s.queries + 1 }
  match scalar_one_or_none (s.rows.filter p) with
  | .error e => (.error e, s1)
  | .ok none => (.error .notFound, s1)
  | .ok (some r) => (.ok r, s1)

/-- `BaseRepository.get`: lookup by primary key. -/
def get (s : Session) (entity_id : Nat) : Except RepoErr Row × Session :=
  get_by_field_value s (fun r => r.id == entity_id)

/-- `BaseRepository.get_by_uuid`: capability check first, then lookup. -/
def get_by_uuid (caps : Caps) (s : Session) (u : Nat) : Except RepoErr Row × Session :=
  if !caps.hasUuid then (.error .noUuidInModel, s)
  else get_by_field_value s (fun r => r.uuid == u)

/-- `BaseRepository._get_filled_model`: start from the given entity (or a
fresh blank one) and apply every payload key the model actually has. -/
def get_filled_model (caps : Caps) (payload : Payload) (model : Option Row) : Row :=
  let m := model.getD {}
  payload.foldl (fun r kv => if caps.hasField kv.1 then r.setField kv.1 kv.2 else r) m

/-- `BaseRepository._before_create`.  `genUuid` is the value `uuid4()` would
return; `tCreated` and `tUpdated` are the values of the two separate
`datetime.now(UTC)` calls, in program order. -/
def before_create (caps : Caps) (p : Payload) (genUuid tCreated tUpdated : Nat) : Payload :=
  let p1 := if caps.hasUuid && !(Payload.get p "uuid").truthy
            then Payload.set p "uuid" (.vUuid genUuid) else p
  let p2 := if caps.hasTimestamps && !(Payload.get p1 "created_at").truthy
            then Payload.set p1 "created_at" (.vTime tCreated) else p1
  let p3 := if caps.hasTimestamps && !(Payload.get p2 "updated_at").truthy
            then Payload.set p2 "updated_at" (.vTime tUpdated) else p2
  p3

/-- `BaseRepository.create`: pre-process the payload, fill a fresh model,
insert and refresh (the server assigns the next sequence id when the payload
did not carry one). -/
def create (caps : Caps) (s : Session) (payload : Payload)
    (genUuid tCreated tUpdated : Nat) : Row × Session :=
  let p := before_create caps payload genUuid tCreated tUpdated
  let entity := get_filled_model caps p none
  let entity := if Payload.hasKey p "id" then entity else { entity with id := s.nextId }
  (entity, { rows := s.rows ++ [entity], nextId := s.nextId + 1, queries := s.queries + 1 })

/-- `BaseRepository.update`.  `tNow` is the value of the `datetime.now(UTC)`
call that overrides a supplied `updated_at`. -/
def update (caps : Caps) (s : Session) (payload : Payload) (tNow : Nat) :
    Except RepoErr Row × Session :=
  if !(Payload.get payload "id").truthy && !(Payload.get payload "uuid").truthy then
    (.error .noPrimaryKeyInModel, s)
  else
    let res :=
      if (Payload.get payload "id").truthy then get s (Payload.get payload "id").asNat
      else get_by_uuid caps s (Payload.get payload "uuid").asNat
    match res with
    | (.error e, s1) => (.error e, s1)
    | (.ok entity, s1) =>
        let payload1 := if Payload.hasKey payload "updated_at"
                        then Payload.set payload "updated_at" (.vTime tNow) else payload
        let entity1 := get_filled_model caps payload1 (some entity)
        (.ok entity1, s1.commitUpdate entity.id entity1)

/-- `BaseRepository.delete`: soft delete when the model has `deleted_at` and
the row is still active, otherwise a physical `DELETE ... WHERE id = ...`. -/
def delete (caps : Caps) (s : Session) (tNow : Nat) (entity_id : Nat) :
    Except RepoErr Bool × Session :=
  match get s entity_id with
  | (.error e, s1) => (.error e, s1)
  | (.ok entity, s1) =>
    if caps.hasSoftDelete && entity.deleted_at.isNone then
      (.ok true, s1.commitUpdate entity.id { entity with deleted_at := some tNow })
    else
      (.ok true, { s1 with rows := s1.rows.filter (fun r => !(r.id == entity_id)),
                           queries := s1.queries + 1 })

/-- A where-condition the repository can attach to a select statement. -/
inductive WhereClause where
  | idIn (ids : List Nat)
  | uuidIn (uuids : List Nat)
  | deletedIsNull
  | deletedIsNotNull
  | deactivatedIsNull
  | deactivatedIsNotNull
  deriving DecidableEq, Repr

/-- Whether a row satisfies a where-condition. -/
def WhereClause.holds : WhereClause → Row → Bool
  | .idIn ids, r => ids.contains r.id
  | .uuidIn us, r => us.contains r.uuid
  | .deletedIsNull, r => r.deleted_at.isNone
  | .deletedIsNotNull, r => r.deleted_at.isSome
  | .deactivatedIsNull, r => r.deactivated_at.isNone
  | .deactivatedIsNotNull, r => r.deactivated_at.isSome

/-- An immutable SQLAlchemy `Select`: accumulated where-conditions plus
limit/offset.  Every modifier returns a new statement. -/
structure SelectStmt where
  clauses : List WhereClause := []
  lim : Option Nat := none
  off : Option Nat := none
  deriving DecidableEq, Repr

/-- `stmt.where(c)`: a new statement with one more condition. -/
def SelectStmt.addWhere (stmt : SelectStmt) (c : WhereClause) : SelectStmt :=
  { stmt with clauses := stmt.clauses ++ [c] }

/-- Executing a select against the table: filter, then offset, then limit. -/
def SelectStmt.run (stmt : SelectStmt) (rows : List Row) : List Row :=
  let found := rows.filter (fun r => stmt.clauses.all (fun c => c.holds r))
  let found := match stmt.off with | some o => found.drop o | none => found
  match stmt.lim with | some l => found.take l | none => found

/-- `BaseRepository._apply_primary_ids_filters`: its local `stmt` rebindings,
returning the statement it built. -/
def apply_primary_ids_filters (caps : Caps) (stmt : SelectStmt) (filters : Payload) :
    SelectStmt :=
  let stmt := if (Payload.get filters "ids").truthy
              then stmt.addWhere (.idIn (Payload.get filters "ids").asNatList) else stmt
  let stmt := if (Payload.get filters "uuids").truthy && caps.hasUuid
              then stmt.addWhere (.uuidIn (Payload.get filters "uuids").asNatList) else stmt
  stmt

/-- `BaseRepository._apply_deleted_deactivated_filters`: default active-only
visibility, `only_deleted`/`only_deactivated` narrowing, `with_*` widening. -/
def apply_deleted_deactivated_filters (caps : Caps) (stmt : SelectStmt)
    (filters : Payload) : SelectStmt :=
  let stmt :=
    if caps.hasSoftDelete then
      let stmt :=
        if !(Payload.get filters "only_deleted").truthy
            && !(Payload.get filters "with_deleted").truthy
        then stmt.addWhere .deletedIsNull else stmt
      if (Payload.get filters "only_deleted").truthy
      then stmt.addWhere .deletedIsNotNull else stmt
    else stmt
  if caps.hasDeactivation then
    if (Payload.get filters "only_deactivated").truthy
    then stmt.addWhere .deactivatedIsNotNull
    else if !(Payload.get filters "with_deactivated").truthy
        && !(Payload.get filters "only_deactivated").truthy
    then stmt.addWhere .deactivatedIsNull
    else stmt
  else stmt

/-- `BaseRepository._apply_filters`.  The Python body calls the two helpers
as bare statements, discarding the new `Select` objects they return, and then
returns its own (unchanged) `stmt` — reproduced here literally. -/
def apply_filters (caps : Caps) (stmt : SelectStmt) (filters : Payload) : SelectStmt :=
  let _ := apply_primary_ids_filters caps stmt filters
  let _ := apply_deleted_deactivated_filters caps stmt filters
  stmt

/-- Default page size `BaseRepository._LIMIT`. -/
def LIMIT : Nat := 100

/-- `BaseRepository.list` (the sorting branch is not modelled: no claim under
verification concerns sort order).  `if filters:` and `if not navigation:`
are Python truthiness on a possibly-absent dict. -/
def list (caps : Caps) (s : Session) (filters : Option Payload)
    (navigation : Option Payload) : List Row × Session :=
  let stmt : SelectStmt := {}
  let stmt :=
    match filters with
    | some f => if !f.isEmpty then apply_filters caps stmt f else stmt
    | none => stmt
  let nav : Payload :=
    match navigation with
    | some n => if !n.isEmpty then n else [("limit", .vInt (Int.ofNat LIMIT)), ("offset", .vInt 0)]
    | none => [("limit", .vInt (Int.ofNat LIMIT)), ("offset", .vInt 0)]
  let stmt := { stmt with lim := (Payload.get nav "limit").asOptNat,
                          off := (Payload.get nav "offset").asOptNat }
  (stmt.run s.rows, { s with queries := s.queries + 1 })

/-- `BaseRepository.toggle_deactivate`: capability check first, then flip
`deactivated_at` (timestamp → None, None → now). -/
def toggle_deactivate (caps : Caps) (s : Session) (tNow : Nat) (entity_id : Nat) :
    Except RepoErr Bool × Session :=
  if !caps.hasDeactivation then (.error .deactivatedNotAllowed, s)
  else
    match get s entity_id with
    | (.error e, s1) => (.error e, s1)
    | (.ok entity, s1) =>
      let entity1 :=
        match entity.deactivated_at with
        | some _ => { entity with deactivated_at := none }
        | none => { entity with deactivated_at := some tNow }
      (.ok true, s1.commitUpdate entity.id entity1)

/-!
`AsyncDatabaseConnectionManager` (`src/dh_bl_core/database/manager.py`).
The manager only reads `echo` and `get_async_connection_url()` from the
settings protocol, so a settings object is those two pieces of data.
-/

/-- The `DbSettingProtocol` surface the manager consumes. -/
structure DbSettings where
  url : String
  echo : Bool
  deriving DecidableEq, Repr

/-- An SQLAlchemy engine: the configuration it was created from, plus whether
its pool has been disposed.  `dispose()` does not unset the attribute. -/
structure Engine where
  url : String
  echo : Bool
  disposed : Bool := false
  deriving DecidableEq, Repr

/-- An `async_sessionmaker` bound to an engine. -/
structure SessionFactory where
  engineUrl : String
  deriving DecidableEq, Repr

/-- The singleton manager's mutable attributes `_engine`/`_session_maker`. -/
structure ManagerState where
  engine : Option Engine := none
  session_maker : Option SessionFactory := none
  deriving DecidableEq, Repr

/-- The state before any `init` call. -/
def ManagerState.fresh : ManagerState := {}

/-- `AsyncDatabaseConnectionManager.init`: returns immediately when
`_engine` is already set, else builds the engine and session factory from
the settings. -/
def ManagerState.init (st : ManagerState) (settings : DbSettings) : ManagerState :=
  if st.engine.isSome then st
  else { engine := some { url := settings.url, echo := settings.echo, disposed := false },
         session_maker := some { engineUrl := settings.url } }

/-- `AsyncDatabaseConnectionManager.close`: `await self._engine.dispose()`
when an engine exists.  The `_engine` and `_session_maker` attributes are
left set. -/
def ManagerState.close (st : ManagerState) : ManagerState :=
  match st.engine with
  | none => st
  | some e => { st with engine := some { e with disposed := true } }

/-- Raised by the `engine`/`session_maker` accessors before `init`. -/
inductive MgrErr where
  | dbManagerNotInit
  deriving DecidableEq, Repr

/-- The `engine` property: fail fast when not initialized. -/
def ManagerState.engineAcc (st : ManagerState) : Except MgrErr Engine :=
  match st.engine with
  | none => .error .dbManagerNotInit
  | some e => .ok e

/-- Environment outcome of the `SELECT 1` round trip: success, or any
connection/execution exception (timeout, refusal, auth failure, ...). -/
inductive ConnOutcome where
  | success
  | failure
  deriving DecidableEq, Repr

/-- `AsyncDatabaseConnectionManager.health_check`: the whole body is inside
`try ... except Exception: return False`; the `engine` accessor's
`DbMangerNotInit` is an `Exception` subclass and is caught too. -/
def health_check (st : ManagerState) (conn : ConnOutcome) : Bool :=
  match st.engineAcc with
  | .error _ => false
  | .ok _ => match conn with | .success => true | .failure => false

/-- The value the last applied payload entry writes for key `k` during a
`_get_filled_model` fold (the specification of the fold's effect per key). -/
def lastVal (k : String) : Payload → Option PyVal
  | [] => none
  | kv :: t =>
    match lastVal k t with
    | some v => some v
    | none => if kv.1 == k then some kv.2 else none

/-! Concrete fixtures used to evaluate the embedded operations. -/

/-- An entity type with only the soft-delete capability. -/
def capsSoftDelete : Caps :=
  { hasUuid := false, hasTimestamps := false, hasSoftDelete := true, hasDeactivation := false }

/-- An entity type with uuid and timestamp capabilities. -/
def capsUuidTimestamps : Caps :=
  { hasUuid := true, hasTimestamps := true, hasSoftDelete := false, hasDeactivation := false }

/-- An entity type with only the timestamp capability. -/
def capsTimestamps : Caps :=
  { hasUuid := false, hasTimestamps := true, hasSoftDelete := false, hasDeactivation := false }

/-- An entity type with only the deactivation capability. -/
def capsDeactivation : Caps :=
  { hasUuid := false, hasTimestamps := false, hasSoftDelete := false, hasDeactivation := true }

/-- An entity type with only the uuid capability. -/
def capsUuid : Caps :=
  { hasUuid := true, hasTimestamps := false, hasSoftDelete := false, hasDeactivation := false }

/-- An active (never soft-deleted) row. -/
def rowActive : Row := { id := 1 }

/-- A soft-deleted row. -/
def rowDeleted : Row := { id := 2, deleted_at := some 5 }

/-- A table holding one active and one soft-deleted row. -/
def mixedSession : Session := { rows := [rowActive, rowDeleted], nextId := 3, queries := 0 }

/-- A row that is currently deactivated (since time 5). -/
def rowDeact : Row := { id := 1, deactivated_at := some 5 }

/-- A table holding one row that is currently deactivated (since time 5). -/
def deactivatedSession : Session := { rows := [rowDeact], nextId := 2, queries := 0 }

/-- A row with a data field and a last-update timestamp of 3. -/
def rowUpd : Row := { id := 1, name := "a", updated_at := 3 }

/-- A table holding only `rowUpd`. -/
def sessUpd : Session := { rows := [rowUpd], nextId := 2, queries := 0 }

/-- A row carrying uuid 7. -/
def rowUuid : Row := { id := 3, uuid := 7, name := "q" }

/-- A table holding only `rowUuid`. -/
def sessUuid : Session := { rows := [rowUuid], nextId := 4, queries := 0 }

/-- Settings for a first database. -/
def settingsDb1 : DbSettings := { url := "postgresql+asyncpg://u:p@h:5432/db1", echo := false }

/-- Settings for a second, different database. -/
def settingsDb2 : DbSettings := { url := "postgresql+asyncpg://u:p@h:5432/db2", echo := true }

/-- The entity returned by `create` on an empty table for a uuid+timestamps
model, empty payload, generated uuid 42, and the two clock reads returning
0 and 1. -/
def createdEntity : Row :=
  (create capsUuidTimestamps { rows := [], nextId := 1, queries := 0 } [] 42 0 1).1

/-- The session after toggling deactivation twice (at times 10 and 20) on the
row of `deactivatedSession`. -/
def toggledTwiceSession : Session :=
  (toggle_deactivate capsDeactivation
    ((toggle_deactivate capsDeactivation deactivatedSession 10 1).2) 20 1).2

/-! Helper lemmas. -/

theorem Payload.get_eq_vNone_of_not_hasKey {p : Payload} {k : String}
    (h : Payload.hasKey p k = false) : Payload.get p k = PyVal.vNone := by
  unfold Payload.get Payload.hasKey at *
  cases hv : Payload.getVal p k
  · rfl
  · rw [hv] at h
    simp at h

theorem eq_true_of_filter_eq_singleton {α : Type} {p : α → Bool} {l : List α} {r : α}
    (h : l.filter p = [r]) : p r = true := by
  have hr : r ∈ l.filter p := by
    rw [h]
    exact List.mem_singleton_self r
  exact (List.mem_filter.mp hr).2

theorem filter_map_comm {α : Type} (f : α → α) (p : α → Bool)
    (h : ∀ x, p (f x) = p x) :
    ∀ l : List α, (l.map f).filter p = (l.filter p).map f := by
  intro l
  induction l with
  | nil => rfl
  | cons a t ih =>
      simp only [List.map_cons, List.filter_cons, h a]
      cases hpa : p a
      · simpa [hpa] using ih
      · simp [hpa, ih]

theorem filter_not_filter {α : Type} (p : α → Bool) :
    ∀ l : List α, (l.filter (fun x => !(p x))).filter p = [] := by
  intro l
  induction l with
  | nil => rfl
  | cons a t ih =>
      simp only [List.filter_cons]
      cases hpa : p a
      · simp [hpa, ih]
      · simp [hpa, ih]

theorem get_of_filter_singleton {s : Session} {i : Nat} {r : Row}
    (h : s.rows.filter (fun x => x.id == i) = [r]) :
    get s i = (.ok r, { s with queries := s.queries + 1 }) := by
  unfold get get_by_field_value
  rw [h]
  rfl

theorem get_by_uuid_of_filter_singleton {caps : Caps} {s : Session} {u : Nat} {r : Row}
    (hc : caps.hasUuid = true)
    (h : s.rows.filter (fun x => x.uuid == u) = [r]) :
    get_by_uuid caps s u = (.ok r, { s with queries := s.queries + 1 }) := by
  unfold get_by_uuid get_by_field_value
  rw [hc, h]
  rfl

theorem commitUpdate_filter {s : Session} {i : Nat} {r r2 : Row}
    (hfind : s.rows.filter (fun x => x.id == i) = [r])
    (hr2 : (r2.id == i) = true) :
    (Session.commitUpdate s i r2).rows.filter (fun x => x.id == i) = [r2] := by
  have hr := eq_true_of_filter_eq_singleton hfind
  unfold Session.commitUpdate
  have hcomm :
      (s.rows.map (fun x => if x.id == i then r2 else x)).filter (fun x => x.id == i)
        = (s.rows.filter (fun x => x.id == i)).map (fun x => if x.id == i then r2 else x) := by
    refine filter_map_comm _ _ ?_ s.rows
    intro x
    cases hx : (x.id == i)
    · simp [hx]
    · simp [hx, hr2]
  rw [hcomm, hfind]
  simp [hr]
  intro h
  exact absurd (by simpa using hr) h

/-! Theorems for the claims. -/

/-- Claim C1 (code bug): with a fixture holding one active and one
soft-deleted row, `list()` with default filters returns both rows, and
`list(filters={"only_deleted": True})` returns the same two rows: the claim
that default `list` returns only active rows and `only_deleted` exactly the
soft-deleted ones (disjoint sets) fails, because `_apply_filters` discards
the `Select` statements its helpers return and, with no filters passed, the
default active-only condition is never attached at all. -/
theorem list_returns_unfiltered_rows :
    (list capsSoftDelete mixedSession none none).1 = [rowActive, rowDeleted] ∧
    (list capsSoftDelete mixedSession (some [("only_deleted", PyVal.vBool true)]) none).1
      = [rowActive, rowDeleted] ∧
    rowActive.deleted_at = none ∧ rowDeleted.deleted_at = some 5 := by
  decide

/-- The two helper calls inside `_apply_filters` are dead code: the statement
it returns is always its argument. -/
theorem apply_filters_eq (caps : Caps) (stmt : SelectStmt) (filters : Payload) :
    apply_filters caps stmt filters = stmt := rfl

/-- Claim C2 (code bug): after `init(settingsDb1); close(); init(settingsDb2)`
the manager still holds the engine built from `settingsDb1` (merely marked
disposed): `close()` never resets `_engine`/`_session_maker` to `None`, so
the second `init` finds `_engine` set and returns immediately instead of
rebuilding the pool from the new settings. -/
theorem init_after_close_keeps_first_config :
    ((ManagerState.fresh.init settingsDb1).close).init settingsDb2
      = (ManagerState.fresh.init settingsDb1).close ∧
    (((ManagerState.fresh.init settingsDb1).close).init settingsDb2).engine
      = some { url := settingsDb1.url, echo := false, disposed := true } ∧
    ¬ settingsDb1.url = settingsDb2.url := by
  decide

/-- The part of claim C2 that does hold: while `_engine` is set, `init` is a
no-op, so a second `init` right after a first one changes nothing. -/
theorem init_noop_while_initialized (st : ManagerState) (s2 : DbSettings)
    (h : st.engine.isSome = true) : st.init s2 = st := by
  unfold ManagerState.init
  rw [h]
  rfl

/-- Claim C3 (code bug): `create` of a uuid+timestamps model with an empty
payload generates the uuid, but obtains `created_at` and `updated_at` from
two separate `datetime.now(UTC)` calls; with the first clock read returning
0 and the second 1 the created entity has `created_at ≠ updated_at`,
violating the claimed "same instant for both" invariant. -/
theorem create_reads_clock_twice :
    createdEntity.uuid = 42 ∧
    createdEntity.created_at = 0 ∧
    createdEntity.updated_at = 1 ∧
    ¬ createdEntity.created_at = createdEntity.updated_at := by
  decide

/-- Claim C6 (confirmed): `update` with a payload containing neither an `id`
nor a `uuid` key fails with `NoPrimaryKeyInModel` and returns the session
exactly as it was — no statement executed (the query counter is unchanged)
and no row read or mutated. -/
theorem update_without_pk_fails_before_db (caps : Caps) (s : Session)
    (payload : Payload) (tNow : Nat)
    (hid : Payload.hasKey payload "id" = false)
    (huuid : Payload.hasKey payload "uuid" = false) :
    update caps s payload tNow = (.error .noPrimaryKeyInModel, s) := by
  unfold update
  rw [Payload.get_eq_vNone_of_not_hasKey hid, Payload.get_eq_vNone_of_not_hasKey huuid]
  rfl

/-- Witness for C6 at a concrete input. -/
theorem update_without_pk_fails_before_db_witness :
    Payload.hasKey [("name", PyVal.vStr "x")] "id" = false ∧
    Payload.hasKey [("name", PyVal.vStr "x")] "uuid" = false ∧
    update capsSoftDelete mixedSession [("name", PyVal.vStr "x")] 7
      = (.error .noPrimaryKeyInModel, mixedSession) :=
  ⟨by decide, by decide,
    update_without_pk_fails_before_db capsSoftDelete mixedSession
      [("name", PyVal.vStr "x")] 7 (by decide) (by decide)⟩

/-- Claim C7 (confirmed): `get_by_uuid` on an entity type without the uuid
capability fails with `NoUuidInModel`, and `toggle_deactivate` on an entity
type without the deactivation capability fails with `DeactivatedNotAllowed`;
in both cases the session comes back exactly as it was, so the failure
happens before any query is executed and no state is mutated. -/
theorem capability_checks_precede_query (capsA capsB : Caps) (sA sB : Session)
    (u i tNow : Nat)
    (hA : capsA.hasUuid = false) (hB : capsB.hasDeactivation = false) :
    get_by_uuid capsA sA u = (.error .noUuidInModel, sA) ∧
    toggle_deactivate capsB sB tNow i = (.error .deactivatedNotAllowed, sB) := by
  constructor
  · unfold get_by_uuid
    rw [hA]
    rfl
  · unfold toggle_deactivate
    rw [hB]
    rfl

/-- Witness for C7 at a concrete input. -/
theorem capability_checks_precede_query_witness :
    capsSoftDelete.hasUuid = false ∧ capsSoftDelete.hasDeactivation = false ∧
    get_by_uuid capsSoftDelete mixedSession 3 = (.error .noUuidInModel, mixedSession) ∧
    toggle_deactivate capsSoftDelete mixedSession 7 1
      = (.error .deactivatedNotAllowed, mixedSession) := by
  refine ⟨by decide, by decide, ?_⟩
  exact capability_checks_precede_query capsSoftDelete capsSoftDelete
    mixedSession mixedSession 3 1 7 (by decide) (by decide)

/-- Claim C8 (confirmed): `health_check` is a total Boolean function of the
manager state and the connection outcome: it returns `true` exactly when the
manager is initialized and the trivial round-trip query succeeds, and `false`
in every other case (not initialized — the accessor's `DbMangerNotInit` is an
`Exception` subclass caught by the handler — or any connection failure); it
never propagates an error. -/
theorem health_check_never_raises (st : ManagerState) (conn : ConnOutcome) :
    health_check st conn = (st.engine.isSome && (conn == ConnOutcome.success)) := by
  unfold health_check ManagerState.engineAcc
  cases h : st.engine <;> cases conn <;> simp [h]

/-- Claim C4 (confirmed): on a table whose select for `id = i` finds exactly
the row `r`, if the entity type supports soft delete and `r` is not yet
soft-deleted, `delete` reports success, sets `deleted_at` to the current time
and keeps the row, so a subsequent `get` still succeeds and returns it; in
every other case (no soft-delete capability, or already soft-deleted) the row
is physically removed and a subsequent `get` fails with `NotFound`. -/
theorem delete_soft_else_physical (caps : Caps) (s : Session) (i tNow : Nat) (r : Row)
    (hfind : s.rows.filter (fun x => x.id == i) = [r]) :
    ((caps.hasSoftDelete = true ∧ r.deleted_at = none) →
        (delete caps s tNow i).1 = .ok true ∧
        (get (delete caps s tNow i).2 i).1 = .ok { r with deleted_at := some tNow })
    ∧ ((caps.hasSoftDelete = false ∨ ¬ r.deleted_at = none) →
        (delete caps s tNow i).1 = .ok true ∧
        (get (delete caps s tNow i).2 i).1 = .error .notFound) := by
  have hget := get_of_filter_singleton hfind
  have hr := eq_true_of_filter_eq_singleton hfind
  have hri : r.id = i := by simpa using hr
  constructor
  · rintro ⟨hsd, hdel⟩
    have hd : delete caps s tNow i
        = (.ok true, Session.commitUpdate { s with queries := s.queries + 1 } i
            { r with deleted_at := some tNow }) := by
      unfold delete
      rw [hget]
      simp [hsd, hdel, hri]
    have hfindA : ({ s with queries := s.queries + 1 } : Session).rows.filter
        (fun x => x.id == i) = [r] := by simpa using hfind
    have hrA : (({ r with deleted_at := some tNow } : Row).id == i) = true := by
      simpa using hr
    have hfind1 := commitUpdate_filter hfindA hrA
    rw [hd]
    exact ⟨rfl, by rw [get_of_filter_singleton hfind1]⟩
  · intro h2
    have hcond : (caps.hasSoftDelete && r.deleted_at.isNone) = false := by
      rcases h2 with h | h
      · simp [h]
      · cases hdel : r.deleted_at
        · exact absurd hdel h
        · simp [hdel]
    have hd : delete caps s tNow i
        = (.ok true, { rows := s.rows.filter (fun x => !(x.id == i)),
                       nextId := s.nextId, queries := s.queries + 1 + 1 }) := by
      unfold delete
      rw [hget]
      simp [hcond]
    rw [hd]
    refine ⟨rfl, ?_⟩
    unfold get get_by_field_value
    rw [filter_not_filter (fun x => x.id == i) s.rows]
    rfl

/-- Witness for C4 at concrete inputs: the soft branch on an active row of a
soft-delete entity, and the physical branch on an already soft-deleted row. -/
theorem delete_soft_else_physical_witness :
    (mixedSession.rows.filter (fun x => x.id == 1) = [rowActive]) ∧
    (capsSoftDelete.hasSoftDelete = true ∧ rowActive.deleted_at = none) ∧
    ((delete capsSoftDelete mixedSession 9 1).1 = .ok true ∧
      (get (delete capsSoftDelete mixedSession 9 1).2 1).1
        = .ok { rowActive with deleted_at := some 9 }) ∧
    ((delete capsSoftDelete mixedSession 9 2).1 = .ok true ∧
      (get (delete capsSoftDelete mixedSession 9 2).2 2).1 = .error .notFound) :=
  ⟨by decide, ⟨by decide, by decide⟩,
    (delete_soft_else_physical capsSoftDelete mixedSession 1 9 rowActive
      (by decide)).1 ⟨by decide, by decide⟩,
    (delete_soft_else_physical capsSoftDelete mixedSession 2 9 rowDeleted
      (by decide)).2 (Or.inr (by decide))⟩

theorem setField_updated_at_of_ne (r : Row) (k : String) (v : PyVal)
    (h : (k == "updated_at") = false) :
    (r.setField k v).updated_at = r.updated_at := by
  unfold Row.setField
  split_ifs <;> simp_all

theorem fill_step_updated_at_of_ne (caps : Caps) (r : Row) (kv : String × PyVal)
    (h : (kv.1 == "updated_at") = false) :
    (if caps.hasField kv.1 then r.setField kv.1 kv.2 else r).updated_at
      = r.updated_at := by
  cases hc : caps.hasField kv.1
  · simp [hc]
  · simp [hc, setField_updated_at_of_ne r kv.1 kv.2 h]

theorem get_filled_model_updated_at (caps : Caps) (hts : caps.hasTimestamps = true) :
    ∀ (l : Payload) (r0 : Row),
      (get_filled_model caps l (some r0)).updated_at =
        (match lastVal "updated_at" l with
          | none => r0.updated_at
          | some v => v.asNat) := by
  intro l
  induction l with
  | nil => intro r0; rfl
  | cons kv t ih =>
      intro r0
      have hstep : get_filled_model caps (kv :: t) (some r0)
          = get_filled_model caps t
              (some (if caps.hasField kv.1 then r0.setField kv.1 kv.2 else r0)) := rfl
      rw [hstep, ih]
      cases hlv : lastVal "updated_at" t with
      | some v => simp [lastVal, hlv]
      | none =>
          simp only [lastVal, hlv]
          cases hk : (kv.1 == "updated_at")
          · simp [hk, fill_step_updated_at_of_ne caps r0 kv hk]
          · have hk1 : kv.1 = "updated_at" := by simpa using hk
            simp [hk, hk1, Caps.hasField, Row.setField, hts]

theorem lastVal_eq_none_of_not_hasKey {k : String} :
    ∀ {p : Payload}, Payload.hasKey p k = false → lastVal k p = none := by
  intro p
  induction p with
  | nil => intro _; rfl
  | cons kv t ih =>
      intro h
      cases hk : (kv.1 == k)
      · have ht : Payload.hasKey t k = false := by
          simpa [Payload.hasKey, Payload.getVal, hk] using h
        simp [lastVal, ih ht, hk]
      · exact absurd h (by simp [Payload.hasKey, Payload.getVal, hk])

theorem map_overwrite_id_of_not_hasKey {k : String} {v : PyVal} :
    ∀ {p : Payload}, Payload.hasKey p k = false →
      p.map (fun kv => if kv.1 == k then (k, v) else kv) = p := by
  intro p
  induction p with
  | nil => intro _; rfl
  | cons kv t ih =>
      intro h
      cases hk : (kv.1 == k)
      · have ht : Payload.hasKey t k = false := by
          simpa [Payload.hasKey, Payload.getVal, hk] using h
        have hne : ¬ ((kv.1 == k) = true) := by simp [hk]
        simp only [List.map_cons]
        rw [if_neg hne, ih ht]
      · exact absurd h (by simp [Payload.hasKey, Payload.getVal, hk])

theorem lastVal_map_overwrite {k : String} {v : PyVal} :
    ∀ {p : Payload}, Payload.hasKey p k = true →
      lastVal k (p.map (fun kv => if kv.1 == k then (k, v) else kv)) = some v := by
  intro p
  induction p with
  | nil => intro h; simp [Payload.hasKey, Payload.getVal] at h
  | cons kv t ih =>
      intro h
      cases hkt : Payload.hasKey t k
      · have hk : (kv.1 == k) = true := by
          cases hkk : (kv.1 == k)
          · have ht : Payload.hasKey t k = true := by
              simpa [Payload.hasKey, Payload.getVal, hkk] using h
            exact absurd ht (by simp [hkt])
          · rfl
        have hmap := map_overwrite_id_of_not_hasKey (v := v) hkt
        have hnone := lastVal_eq_none_of_not_hasKey (k := k) hkt
        simp only [List.map_cons, hmap]
        simp only [lastVal, hnone, hk]
        simp
      · have hrest := ih hkt
        simp only [List.map_cons, lastVal, hrest]

theorem lastVal_set_of_hasKey {k : String} {v : PyVal} {p : Payload}
    (h : Payload.hasKey p k = true) :
    lastVal k (Payload.set p k v) = some v := by
  unfold Payload.set
  rw [h]
  simpa using lastVal_map_overwrite h

/-- Claim C5 (confirmed): for a timestamp-capable entity type, on a payload
that resolves its row by `id`, `update` overrides a supplied `updated_at`
with the current time whenever the key is present (whatever value the caller
supplied), and leaves the stored `updated_at` untouched when the key is
absent. -/
theorem update_touches_updated_at_iff_key_present (caps : Caps) (s : Session)
    (payload : Payload) (tNow : Nat) (r : Row)
    (hts : caps.hasTimestamps = true)
    (hid : (Payload.get payload "id").truthy = true)
    (hfind : s.rows.filter (fun x => x.id == (Payload.get payload "id").asNat) = [r]) :
    (Payload.hasKey payload "updated_at" = true →
      ∃ e, (update caps s payload tNow).1 = .ok e ∧ e.updated_at = tNow)
    ∧ (Payload.hasKey payload "updated_at" = false →
      ∃ e, (update caps s payload tNow).1 = .ok e ∧ e.updated_at = r.updated_at) := by
  have hget := get_of_filter_singleton hfind
  constructor
  · intro hkey
    have hup : (update caps s payload tNow).1
        = .ok (get_filled_model caps
            (Payload.set payload "updated_at" (.vTime tNow)) (some r)) := by
      unfold update
      rw [hid, hget]
      simp [hkey, hid]
    refine ⟨get_filled_model caps
      (Payload.set payload "updated_at" (.vTime tNow)) (some r), hup, ?_⟩
    rw [get_filled_model_updated_at caps hts, lastVal_set_of_hasKey hkey]
    rfl
  · intro hkey
    have hup : (update caps s payload tNow).1
        = .ok (get_filled_model caps payload (some r)) := by
      unfold update
      rw [hid, hget]
      simp [hkey, hid]
    refine ⟨get_filled_model caps payload (some r), hup, ?_⟩
    rw [get_filled_model_updated_at caps hts, lastVal_eq_none_of_not_hasKey hkey]

/-- Witness for C5 at a concrete input: a supplied `updated_at` of 999 is
overridden with the call-time 7, and without the key the stored value 3 is
kept. -/
theorem update_touches_updated_at_iff_key_present_witness :
    (∃ e, (update capsTimestamps sessUpd
        [("id", PyVal.vInt 1), ("updated_at", PyVal.vTime 999)] 7).1 = .ok e ∧
      e.updated_at = 7) ∧
    (∃ e, (update capsTimestamps sessUpd
        [("id", PyVal.vInt 1), ("name", PyVal.vStr "b")] 7).1 = .ok e ∧
      e.updated_at = rowUpd.updated_at) :=
  ⟨(update_touches_updated_at_iff_key_present capsTimestamps sessUpd
      [("id", PyVal.vInt 1), ("updated_at", PyVal.vTime 999)] 7 rowUpd
      (by decide) (by decide) (by decide)).1 (by decide),
   (update_touches_updated_at_iff_key_present capsTimestamps sessUpd
      [("id", PyVal.vInt 1), ("name", PyVal.vStr "b")] 7 rowUpd
      (by decide) (by decide) (by decide)).2 (by decide)⟩

theorem toggle_deactivate_of_filter_singleton {caps : Caps} {s : Session}
    (t : Nat) {i : Nat} {r : Row}
    (hcap : caps.hasDeactivation = true)
    (hfind : s.rows.filter (fun x => x.id == i) = [r]) :
    toggle_deactivate caps s t i
      = (.ok true, Session.commitUpdate { s with queries := s.queries + 1 } r.id
          { r with deactivated_at := if r.deactivated_at.isSome then none else some t }) := by
  have hget := get_of_filter_singleton hfind
  unfold toggle_deactivate
  rw [hcap, hget]
  cases hda : r.deactivated_at
  · simp [hda]
  · simp [hda]

theorem commitUpdate_filter2 {s : Session} {i j : Nat} {r r2 : Row}
    (hfind : s.rows.filter (fun x => x.id == i) = [r])
    (hr2 : (r2.id == i) = true) (hj : j = i) :
    (Session.commitUpdate s j r2).rows.filter (fun x => x.id == i) = [r2] := by
  subst hj
  exact commitUpdate_filter hfind hr2

theorem toggle_step {caps : Caps} {s : Session} (t : Nat) {i : Nat} {r : Row}
    (hcap : caps.hasDeactivation = true)
    (hfind : s.rows.filter (fun x => x.id == i) = [r])
    (hri : r.id = i) :
    (toggle_deactivate caps s t i).1 = .ok true ∧
    (toggle_deactivate caps s t i).2.rows.filter (fun x => x.id == i)
      = [{ r with deactivated_at := if r.deactivated_at.isSome then none else some t }] ∧
    ({ r with deactivated_at :=
        if r.deactivated_at.isSome then none else some t } : Row).id = i := by
  have hr := eq_true_of_filter_eq_singleton hfind
  have h1 := toggle_deactivate_of_filter_singleton t hcap hfind
  have hfindA : ({ s with queries := s.queries + 1 } : Session).rows.filter
      (fun x => x.id == i) = [r] := by simpa using hfind
  have hr1 : (({ r with deactivated_at :=
      if r.deactivated_at.isSome then none else some t } : Row).id == i) = true := by
    simpa using hr
  have hfind1 := commitUpdate_filter2 hfindA hr1 hri
  exact ⟨by rw [h1], by rw [h1]; exact hfind1, by simpa using hri⟩

/-- Claim C9 (amended, proved): for a deactivation-capable entity type whose
select by `id = i` finds exactly the row `r`, `toggle_deactivate` reports
success and flips `deactivated_at` (a present timestamp is cleared; an absent
one becomes the time of the call), and calling it twice restores the
null/non-null status: starting from null the row returns exactly to its
original state, while starting from a timestamp the row ends with the time of
the second call — not necessarily its original value. -/
theorem toggle_deactivate_flip_and_twice (caps : Caps) (s : Session)
    (i t1 t2 : Nat) (r : Row)
    (hcap : caps.hasDeactivation = true)
    (hfind : s.rows.filter (fun x => x.id == i) = [r]) :
    (toggle_deactivate caps s t1 i).1 = .ok true ∧
    ((toggle_deactivate caps s t1 i).2.rows.filter (fun x => x.id == i)
      = [{ r with deactivated_at := if r.deactivated_at.isSome then none else some t1 }]) ∧
    ((toggle_deactivate caps ((toggle_deactivate caps s t1 i).2) t2 i).2.rows.filter
        (fun x => x.id == i)
      = [if r.deactivated_at.isSome then { r with deactivated_at := some t2 } else r]) := by
  have hri : r.id = i := by simpa using (eq_true_of_filter_eq_singleton hfind)
  obtain ⟨ha1, ha2, ha3⟩ := toggle_step t1 hcap hfind hri
  obtain ⟨hb1, hb2, hb3⟩ := toggle_step t2 hcap ha2 ha3
  refine ⟨ha1, ha2, ?_⟩
  rw [hb2]
  cases hda : r.deactivated_at with
  | none =>
      simp only [hda, Option.isSome_none, Bool.false_eq_true, reduceIte,
        Option.isSome_some]
      have : ({ r with deactivated_at := (none : Option Nat) } : Row) = r := by
        cases r
        simp_all
      simp [this]
  | some t0 =>
      simp [hda]

/-- Claim C9 counterexample: with the row deactivated since time 5, toggling
at times 10 and then 20 leaves `deactivated_at = some 20`, not the original
`some 5`: the double toggle does not restore the original value. -/
theorem toggle_deactivate_twice_counterexample :
    toggledTwiceSession.rows = [{ rowDeact with deactivated_at := some 20 }] ∧
    ¬ toggledTwiceSession.rows = [rowDeact] := by
  decide

/-- Witness for the amended C9 at a concrete input. -/
theorem toggle_deactivate_flip_and_twice_witness :
    (capsDeactivation.hasDeactivation = true) ∧
    (deactivatedSession.rows.filter (fun x => x.id == 1) = [rowDeact]) ∧
    ((toggle_deactivate capsDeactivation deactivatedSession 10 1).1 = .ok true ∧
      ((toggle_deactivate capsDeactivation deactivatedSession 10 1).2.rows.filter
          (fun x => x.id == 1)
        = [{ rowDeact with deactivated_at :=
            if rowDeact.deactivated_at.isSome then none else some 10 }]) ∧
      ((toggle_deactivate capsDeactivation
          ((toggle_deactivate capsDeactivation deactivatedSession 10 1).2) 20 1).2.rows.filter
          (fun x => x.id == 1)
        = [if rowDeact.deactivated_at.isSome
            then { rowDeact with deactivated_at := some 20 } else rowDeact])) :=
  ⟨by decide, by decide,
    toggle_deactivate_flip_and_twice capsDeactivation deactivatedSession 1 10 20 rowDeact
      (by decide) (by decide)⟩

/-- Claim C10 (confirmed): `update` decides identifier presence by Python
truthiness, not key presence: a payload whose `id` key is present but falsy
(such as `id = 0`) with no truthy `uuid` raises `NoPrimaryKeyInModel` without
touching the database even though an id was supplied — so a row with id 0 can
never be addressed by `update` this way — while a payload with a falsy `id`
but a truthy `uuid` resolves the row by uuid. -/
theorem update_identifier_truthiness (caps : Caps) (s : Session) (p1 p2 : Payload)
    (tNow u : Nat) (r : Row)
    (h1a : Payload.hasKey p1 "id" = true)
    (h1b : (Payload.get p1 "id").truthy = false)
    (h1c : (Payload.get p1 "uuid").truthy = false)
    (h2a : (Payload.get p2 "id").truthy = false)
    (h2b : Payload.get p2 "uuid" = PyVal.vUuid u)
    (h2c : Payload.hasKey p2 "updated_at" = false)
    (hcap : caps.hasUuid = true)
    (hfind : s.rows.filter (fun x => x.uuid == u) = [r]) :
    update caps s p1 tNow = (.error .noPrimaryKeyInModel, s) ∧
    (update caps s p2 tNow).1 = .ok (get_filled_model caps p2 (some r)) := by
  constructor
  · unfold update
    rw [h1b, h1c]
    rfl
  · have hgu := get_by_uuid_of_filter_singleton hcap hfind
    unfold update
    rw [h2a, h2b]
    simp only [PyVal.truthy, PyVal.asNat]
    rw [hgu]
    simp [h2c]

/-- Witness for C10 at concrete inputs: `id = 0` with no uuid raises
`NoPrimaryKeyInModel`; `id = 0` with `uuid = 7` resolves the row carrying
uuid 7. -/
theorem update_identifier_truthiness_witness :
    Payload.hasKey [("id", PyVal.vInt 0), ("name", PyVal.vStr "x")] "id" = true ∧
    (Payload.get [("id", PyVal.vInt 0), ("name", PyVal.vStr "x")] "id").truthy = false ∧
    update capsUuid sessUuid [("id", PyVal.vInt 0), ("name", PyVal.vStr "x")] 9
      = (.error .noPrimaryKeyInModel, sessUuid) ∧
    (update capsUuid sessUuid
        [("id", PyVal.vInt 0), ("uuid", PyVal.vUuid 7), ("name", PyVal.vStr "x")] 9).1
      = .ok (get_filled_model capsUuid
          [("id", PyVal.vInt 0), ("uuid", PyVal.vUuid 7), ("name", PyVal.vStr "x")]
          (some rowUuid)) :=
  ⟨by decide, by decide,
    (update_identifier_truthiness capsUuid sessUuid
      [("id", PyVal.vInt 0), ("name", PyVal.vStr "x")]
      [("id", PyVal.vInt 0), ("uuid", PyVal.vUuid 7), ("name", PyVal.vStr "x")]
      9 7 rowUuid (by decide) (by decide) (by decide) (by decide) (by decide)
      (by decide) (by decide) (by decide)).1,
    (update_identifier_truthiness capsUuid sessUuid
      [("id", PyVal.vInt 0), ("name", PyVal.vStr "x")]
      [("id", PyVal.vInt 0), ("uuid", PyVal.vUuid 7), ("name", PyVal.vStr "x")]
      9 7 rowUuid (by decide) (by decide) (by decide) (by decide) (by decide)
      (by decide) (by decide) (by decide)).2⟩

end DhBlCore
